import Mathlib

/-!
Verification of the smoothing-parameter gridsearch in
`docs/assets/static_notebooks/planar_reconstruction.ipynb` (cell 12):

```python
snr_max = 0
smooth_max = 0
for i in range(30):
    smoothed_ks = ndimage.gaussian_filter(np.real(ks), float(i+1))
    snr_iter = stats.snr(np.real(kappa_true), np.real(smoothed_ks))
    if snr_iter > snr_max:
        snr_max = snr_iter
        smooth_max = float(i+1)

optimal_ks = ndimage.gaussian_filter(np.real(ks), smooth_max)
```

The embedding is parameterised by the two external numerical collaborators:
`blur` models `scipy.ndimage.gaussian_filter` restricted to the integer
sigmas the loop actually uses (the loop only ever passes `float(i+1)` and
the final recomputation passes `smooth_max`, which is one of those integers
or `0`), and `scorer` models the opaque numeric formula of
`darkmappy.validation.snr`.  Scores are modelled as rationals.  The loop
bound `30` is generalised to a parameter `steps` (the spec's
`max_scale_steps`); the notebook instantiates `steps = 30`.
-/

namespace DarkMappy

/-- A complex number with rational components, modelling a numpy complex
pixel value. -/
structure Cplx where
  re : ℚ
  im : ℚ
deriving DecidableEq, Repr

/-- A 2D complex array (`kappa_true`, `ks`): a list of rows. -/
def Field : Type := List (List Cplx)

instance : DecidableEq Field := by
  unfold Field
  infer_instance

/-- A 2D real array (the result of `np.real` or of `gaussian_filter`). -/
def RealField : Type := List (List ℚ)

instance : DecidableEq RealField := by
  unfold RealField
  infer_instance

/-- `np.real`: componentwise real part of a complex field. -/
def realPart (f : Field) : RealField :=
  f.map (fun row => row.map Cplx.re)

/-- The numpy shape of a 2D array, as the list of its row lengths
(two rectangular arrays have equal numpy shapes iff these lists are
equal). -/
def dims (f : RealField) : List ℕ :=
  f.map List.length

/-- The error taxonomy of spec section 7. -/
inductive Err where
  | DimensionMismatch
  | InvalidParameter
deriving DecidableEq, Repr

/-- Modelled from the spec: `darkmappy.validation.snr` (module
`darkmappy/validation.py`) is not under `src/`; per spec section 6 the
scorer is an opaque real-valued function of two same-shaped fields
(parameter `scorer` here), and per spec section 7 a shape mismatch
surfaces as a `DimensionMismatch` failure. -/
def snrCall (scorer : RealField → RealField → ℚ) (ref cand : RealField) :
    Except Err ℚ :=
  if dims ref = dims cand then .ok (scorer ref cand) else .error .DimensionMismatch

/-- The running state of the loop: the mutable variables `snr_max` and
`smooth_max` of cell 12.  `smooth_max` holds `float(i+1)` for some loop
index `i`, or the initial `0`; these are exact integers, so it is carried
as a natural number. -/
structure ScanState where
  snr_max : ℚ
  smooth_max : ℕ
deriving DecidableEq, Repr

/-- The `for i in range(...)` loop of cell 12, over the list of loop
indices, threading the `(snr_max, smooth_max)` state.  The second
component of the result records the sigma of every `gaussian_filter`
call made, in order (instrumentation used only to state evaluation-order
properties; it does not influence the state).  A failure raised by the
scorer aborts the loop, as an uncaught Python exception aborts the cell. -/
def runScan (blur : ℕ → RealField → RealField)
    (scorer : RealField → RealField → ℚ) (gt raw : RealField) :
    List ℕ → ScanState → Except Err ScanState × List ℕ
  | [], st => (.ok st, [])
  | i :: rest, st =>
      let smoothed_ks := blur (i + 1) raw
      match snrCall scorer gt smoothed_ks with
      | .error e => (.error e, [i + 1])
      | .ok snr_iter =>
          let st' := if snr_iter > st.snr_max then ⟨snr_iter, i + 1⟩ else st
          let r := runScan blur scorer gt raw rest st'
          (r.1, (i + 1) :: r.2)

/-- Cell 12's gridsearch: initialise `snr_max = 0`, `smooth_max = 0`, scan
`i` over `range(steps)` (the notebook writes the literal `30`), then
recompute `optimal_ks = gaussian_filter(np.real(ks), smooth_max)`.
Returns the final `(snr_max, smooth_max)` state and `optimal_ks`, plus
the ordered log of sigmas passed to `gaussian_filter`. -/
def ksGridsearch (blur : ℕ → RealField → RealField)
    (scorer : RealField → RealField → ℚ) (kappa_true ks : Field)
    (steps : ℕ) : Except Err (ScanState × RealField) × List ℕ :=
  let raw := realPart ks
  let gt := realPart kappa_true
  match runScan blur scorer gt raw (List.range steps) ⟨0, 0⟩ with
  | (.error e, log) => (.error e, log)
  | (.ok st, log) => (.ok (st, blur st.smooth_max raw), log ++ [st.smooth_max])

/-- The scores the scan computes: `scorer(np.real(kappa_true),
gaussian_filter(np.real(ks), i))` for the candidate scales
`i = 1, ..., steps`. -/
def candScores (blur : ℕ → RealField → RealField)
    (scorer : RealField → RealField → ℚ) (kappa_true ks : Field)
    (steps : ℕ) : List ℚ :=
  (List.range steps).map
    (fun i => scorer (realPart kappa_true) (blur (i + 1) (realPart ks)))

/-- One iteration of the loop on the `(snr_max, smooth_max)` state alone,
for a given score function on scales (used to reason about the scan once
the scorer is known not to fail). -/
def pureStep (f : ℕ → ℚ) (st : ScanState) (i : ℕ) : ScanState :=
  if f (i + 1) > st.snr_max then ⟨f (i + 1), i + 1⟩ else st

instance {e a : Type} [DecidableEq e] [DecidableEq a] :
    DecidableEq (Except e a) := fun x y =>
  match x, y with
  | .ok v, .ok w =>
      if h : v = w then .isTrue (by rw [h])
      else .isFalse (fun hc => h (Except.ok.inj hc))
  | .error v, .error w =>
      if h : v = w then .isTrue (by rw [h])
      else .isFalse (fun hc => h (Except.error.inj hc))
  | .ok _, .error _ => .isFalse (fun hc => Except.noConfusion hc)
  | .error _, .ok _ => .isFalse (fun hc => Except.noConfusion hc)

/-- When the two fields have equal shapes and the blur is shape-preserving,
the scorer never fails and the scan is the fold of `pureStep` over the
loop indices, blurring exactly the scales `i + 1`. -/
theorem runScan_ok (blur : ℕ → RealField → RealField)
    (scorer : RealField → RealField → ℚ) (gt raw : RealField)
    (hd : dims gt = dims raw) (hb : ∀ s f, dims (blur s f) = dims f) :
    ∀ (l : List ℕ) (st : ScanState),
      runScan blur scorer gt raw l st =
        (.ok (l.foldl (pureStep (fun j => scorer gt (blur j raw))) st),
         l.map (· + 1)) := by
  intro l
  induction l with
  | nil => intro st; rfl
  | cons i rest ih =>
      intro st
      have hdim : dims gt = dims (blur (i + 1) raw) := by rw [hb]; exact hd
      simp only [runScan, snrCall, if_pos hdim, List.foldl_cons,
        List.map_cons, pureStep, ih]

/-- The running maximum after the scan is the fold of `max` over the
candidate scores, seeded with the initial running maximum. -/
theorem foldl_pureStep_snr_max (f : ℕ → ℚ) :
    ∀ (l : List ℕ) (st : ScanState),
      (l.foldl (pureStep f) st).snr_max =
        (l.map (fun i => f (i + 1))).foldl max st.snr_max := by
  intro l
  induction l with
  | nil => intro st; rfl
  | cons i rest ih =>
      intro st
      simp only [List.foldl_cons, List.map_cons]
      rw [ih]
      congr 1
      unfold pureStep
      split
      · next h => exact (max_eq_right (le_of_lt h)).symm
      · next h => exact (max_eq_left (not_lt.mp h)).symm

/-- Folding `max` over a list returns the list's greatest element when the
seed does not exceed it. -/
theorem foldl_max_eq : ∀ (L : List ℚ) (a M : ℚ),
    (∀ x ∈ L, x ≤ M) → a ≤ M → (M ∈ L ∨ M = a) → L.foldl max a = M := by
  intro L
  induction L with
  | nil =>
      intro a M _ _ hM
      rcases hM with h | h
      · cases h
      · exact h.symm
  | cons x L ih =>
      intro a M hle ha hM
      simp only [List.foldl_cons]
      rcases hM with h | h
      · rcases List.mem_cons.mp h with rfl | hmem
        · exact ih (max a M) M (fun y hy => hle y (List.mem_cons_of_mem _ hy))
            (max_le ha le_rfl) (.inr (max_eq_right ha).symm)
        · exact ih (max a x) M (fun y hy => hle y (List.mem_cons_of_mem _ hy))
            (max_le ha (hle x (List.mem_cons_self x L))) (.inl hmem)
      · subst h
        exact ih (max M x) M (fun y hy => hle y (List.mem_cons_of_mem _ hy))
          (max_le le_rfl (hle x (List.mem_cons_self x L)))
          (.inr (max_eq_left (hle x (List.mem_cons_self x L))).symm)

/-- Folding `max` over a list of values below a bound stays below it. -/
theorem foldl_max_lt : ∀ (L : List ℚ) (a M : ℚ),
    a < M → (∀ x ∈ L, x < M) → L.foldl max a < M := by
  intro L
  induction L with
  | nil => intro a M ha _; exact ha
  | cons x L ih =>
      intro a M ha hlt
      simp only [List.foldl_cons]
      exact ih _ _ (max_lt ha (hlt x (List.mem_cons_self x L)))
        (fun y hy => hlt y (List.mem_cons_of_mem _ hy))

/-- The scanned best scale never leaves `[0, B]` when every processed
scale is at most `B` and the incoming state satisfies the bound. -/
theorem foldl_pureStep_smooth_le (f : ℕ → ℚ) (B : ℕ) :
    ∀ (l : List ℕ) (st : ScanState), (∀ i ∈ l, i + 1 ≤ B) →
      st.smooth_max ≤ B → (l.foldl (pureStep f) st).smooth_max ≤ B := by
  intro l
  induction l with
  | nil => intro st _ h; exact h
  | cons i rest ih =>
      intro st hl hst
      simp only [List.foldl_cons]
      apply ih
      · intro j hj; exact hl j (List.mem_cons_of_mem _ hj)
      · unfold pureStep
        split
        · exact hl i (List.mem_cons_self i rest)
        · exact hst

/-- If no processed candidate strictly beats the incoming running maximum,
the state is left untouched (the comparison is a strict greater-than). -/
theorem foldl_pureStep_const (f : ℕ → ℚ) :
    ∀ (l : List ℕ) (st : ScanState), (∀ i ∈ l, f (i + 1) ≤ st.snr_max) →
      l.foldl (pureStep f) st = st := by
  intro l
  induction l with
  | nil => intro st _; rfl
  | cons i rest ih =>
      intro st h
      simp only [List.foldl_cons]
      have hstep : pureStep f st i = st := by
        unfold pureStep
        rw [if_neg (not_lt.mpr (h i (List.mem_cons_self i rest)))]
      rw [hstep]
      exact ih st (fun j hj => h j (List.mem_cons_of_mem _ hj))

/-- A strictly improving candidate replaces the running state. -/
theorem pureStep_pos (f : ℕ → ℚ) (st : ScanState) (i : ℕ)
    (h : st.snr_max < f (i + 1)) :
    pureStep f st i = ⟨f (i + 1), i + 1⟩ := by
  unfold pureStep
  split
  · rfl
  · next hn => exact absurd h hn

/-- A candidate that does not strictly improve leaves the state alone. -/
theorem pureStep_neg (f : ℕ → ℚ) (st : ScanState) (i : ℕ)
    (h : f (i + 1) ≤ st.snr_max) :
    pureStep f st i = st := by
  unfold pureStep
  split
  · next hp => exact absurd hp (not_lt.mpr h)
  · rfl

/-- The final `(snr_max, smooth_max)` state of the scan on same-shaped
inputs: the fold of `pureStep` over the loop indices from the initial
state `snr_max = 0`, `smooth_max = 0`. -/
def scanResult (blur : ℕ → RealField → RealField)
    (scorer : RealField → RealField → ℚ) (kappa_true ks : Field)
    (steps : ℕ) : ScanState :=
  (List.range steps).foldl
    (pureStep (fun j => scorer (realPart kappa_true) (blur j (realPart ks))))
    ⟨0, 0⟩

/-- On same-shaped inputs with a shape-preserving blur the gridsearch
succeeds: it blurs the scales `1, ..., steps` in order plus the final
recomputation at the best scale, and returns the scanned state together
with `gaussian_filter(np.real(ks), smooth_max)`. -/
theorem ksGridsearch_ok (blur : ℕ → RealField → RealField)
    (scorer : RealField → RealField → ℚ) (kappa_true ks : Field)
    (steps : ℕ)
    (hd : dims (realPart kappa_true) = dims (realPart ks))
    (hb : ∀ s f, dims (blur s f) = dims f) :
    ksGridsearch blur scorer kappa_true ks steps =
      (.ok (scanResult blur scorer kappa_true ks steps,
            blur (scanResult blur scorer kappa_true ks steps).smooth_max
              (realPart ks)),
       (List.range steps).map (· + 1) ++
         [(scanResult blur scorer kappa_true ks steps).smooth_max]) := by
  simp only [ksGridsearch, scanResult]
  rw [runScan_ok blur scorer _ _ hd hb]

/-- If the tied greatest score occurs first at scale `s1`, again at scale
`s2`, strictly dominates all other candidate scores, and exceeds the
initial score `0`, then the scan ends in state `(f s1, s1)`: the strict
greater-than comparison keeps the earliest maximiser. -/
theorem foldl_pureStep_first_argmax (f : ℕ → ℚ) (steps s1 s2 : ℕ)
    (hs1 : 1 ≤ s1) (h12 : s1 < s2) (hs2 : s2 ≤ steps)
    (heq : f s1 = f s2) (hpos : 0 < f s1)
    (hother : ∀ t, 1 ≤ t → t ≤ steps → t ≠ s1 → t ≠ s2 → f t < f s1) :
    (List.range steps).foldl (pureStep f) ⟨0, 0⟩ = ⟨f s1, s1⟩ := by
  obtain ⟨k, rfl⟩ := Nat.exists_eq_add_of_le (le_trans (Nat.le_of_lt h12) hs2)
  obtain ⟨m, hm⟩ : ∃ m, s1 = m + 1 := ⟨s1 - 1, by omega⟩
  rw [List.range_add, List.foldl_append]
  have hfirst : (List.range s1).foldl (pureStep f) ⟨0, 0⟩ = ⟨f s1, s1⟩ := by
    rw [hm, List.range_succ, List.foldl_append]
    have hlt : ((List.range m).foldl (pureStep f) ⟨0, 0⟩).snr_max < f (m + 1) := by
      rw [foldl_pureStep_snr_max]
      apply foldl_max_lt
      · exact hm ▸ hpos
      · intro x hx
        obtain ⟨i, hi, rfl⟩ := List.mem_map.mp hx
        have him : i < m := List.mem_range.mp hi
        have := hother (i + 1) (by omega) (by omega) (by omega) (by omega)
        rw [← hm]
        exact this
    simp only [List.foldl_cons, List.foldl_nil]
    exact pureStep_pos _ _ _ hlt
  rw [hfirst]
  apply foldl_pureStep_const
  intro i hi
  obtain ⟨j, hj, rfl⟩ := List.mem_map.mp hi
  have hjk : j < k := List.mem_range.mp hj
  by_cases h2 : s1 + j + 1 = s2
  · show f (s1 + j + 1) ≤ f s1
    rw [h2, ← heq]
  · exact le_of_lt (hother (s1 + j + 1) (by omega) (by omega) (by omega) h2)

/-- Spec-side formulation used only for the refinement claim about the
final recomputation: a scan that carries the best smoothed candidate along
in its accumulator `(score, scale, field)` instead of recomputing the
field after the loop (spec section 9's fold with an explicit accumulator). -/
def trackedScan (blur : ℕ → RealField → RealField)
    (scorer : RealField → RealField → ℚ) (gt raw : RealField) :
    List ℕ → ℚ × ℕ × RealField → ℚ × ℕ × RealField
  | [], acc => acc
  | i :: rest, (q, n, fld) =>
      let smoothed := blur (i + 1) raw
      let s := scorer gt smoothed
      trackedScan blur scorer gt raw rest
        (if s > q then (s, i + 1, smoothed) else (q, n, fld))

/-- The tracked scan over the whole candidate range, started from the
trivial candidate: score `0`, scale `0`, the unsmoothed raw estimate. -/
def trackedGridsearch (blur : ℕ → RealField → RealField)
    (scorer : RealField → RealField → ℚ) (kappa_true ks : Field)
    (steps : ℕ) : ℚ × ℕ × RealField :=
  trackedScan blur scorer (realPart kappa_true) (realPart ks)
    (List.range steps) (0, 0, realPart ks)

/-- The tracked scan keeps exactly the state of the code's scan, with the
field component always equal to the blur of the raw estimate at the
running best scale. -/
theorem trackedScan_eq_foldl (blur : ℕ → RealField → RealField)
    (scorer : RealField → RealField → ℚ) (gt raw : RealField) :
    ∀ (l : List ℕ) (q : ℚ) (n : ℕ) (fld : RealField),
      fld = blur n raw →
      trackedScan blur scorer gt raw l (q, n, fld) =
        ((l.foldl (pureStep (fun j => scorer gt (blur j raw))) ⟨q, n⟩).snr_max,
         (l.foldl (pureStep (fun j => scorer gt (blur j raw))) ⟨q, n⟩).smooth_max,
         blur (l.foldl (pureStep (fun j => scorer gt (blur j raw))) ⟨q, n⟩).smooth_max
           raw) := by
  intro l
  induction l with
  | nil => intro q n fld hf; simp only [trackedScan, List.foldl_nil, hf]
  | cons i rest ih =>
      intro q n fld hf
      simp only [trackedScan, List.foldl_cons]
      by_cases h : scorer gt (blur (i + 1) raw) > q
      · rw [if_pos h,
          pureStep_pos (fun j => scorer gt (blur j raw)) ⟨q, n⟩ i h]
        exact ih (scorer gt (blur (i + 1) raw)) (i + 1) (blur (i + 1) raw) rfl
      · rw [if_neg h,
          pureStep_neg (fun j => scorer gt (blur j raw)) ⟨q, n⟩ i (not_lt.mp h)]
        exact ih q n fld hf

/-- Cell 12 viewed on its variable environment: the cell reads
`kappa_true` and `ks`, runs the gridsearch, and never assigns to those
names; every call it makes (`np.real`, `ndimage.gaussian_filter`,
`stats.snr`) returns a fresh array and writes nothing in place.  The
first two components are the values bound to `kappa_true` and `ks` once
the cell has run; the third is everything the cell computed. -/
def cell12 (blur : ℕ → RealField → RealField)
    (scorer : RealField → RealField → ℚ) (kappa_true ks : Field)
    (steps : ℕ) :
    Field × Field × (Except Err (ScanState × RealField) × List ℕ) :=
  (kappa_true, ks, ksGridsearch blur scorer kappa_true ks steps)

/-- A shape-preserving instantiation of `gaussian_filter` (blurring a
constant field is the identity; used to evaluate theorems on concrete
inputs). -/
def idBlur : ℕ → RealField → RealField := fun _ f => f

/-- A concrete scorer that always returns `0`. -/
def zeroScorer : RealField → RealField → ℚ := fun _ _ => 0

/-- A concrete scorer that always returns `-1` (SNR scores in decibels can
be negative). -/
def negScorer : RealField → RealField → ℚ := fun _ _ => -1

/-- A concrete scorer that always returns `1`. -/
def oneScorer : RealField → RealField → ℚ := fun _ _ => 1

/-- A concrete 1×1 zero field. -/
def fieldOne : Field := [[⟨0, 0⟩]]

/-- A 1×1 field with real part `0` and imaginary part `1`. -/
def fieldImOne : Field := [[⟨0, 1⟩]]

/-- A 1×1 field with real part `0` and imaginary part `2`. -/
def fieldImTwo : Field := [[⟨0, 2⟩]]

/-- A 4×4 all-zero field. -/
def zerosFour : Field := List.replicate 4 (List.replicate 4 ⟨0, 0⟩)

/-- An 8×8 all-zero field. -/
def zerosEight : Field := List.replicate 8 (List.replicate 8 ⟨0, 0⟩)

/-- When the shapes of the ground truth and the first blurred candidate
differ, the loop's first iteration blurs at scale `1` and then aborts with
`DimensionMismatch` from the scorer. -/
theorem runScan_head_mismatch (blur : ℕ → RealField → RealField)
    (scorer : RealField → RealField → ℚ) (gt raw : RealField)
    (i : ℕ) (rest : List ℕ) (st : ScanState)
    (hdd : ¬ dims gt = dims (blur (i + 1) raw)) :
    runScan blur scorer gt raw (i :: rest) st =
      (.error .DimensionMismatch, [i + 1]) := by
  simp only [runScan, snrCall, if_neg hdd]

/-- Claim C1 — for same-shaped inputs, a shape-preserving blur and
`max_scale_steps ≥ 1`, the gridsearch blurs exactly the candidate scales
`1, ..., steps` in that order (its sigma log is that list followed by the
final recomputation at the best scale), scores each candidate as
`scorer(ground_truth, gaussian_filter(raw_estimate, i))`, and the
reported best score equals the maximum `M` of these candidate scores
whenever `M` exceeds the initial score `0`. -/
theorem C1_best_score_is_max (blur : ℕ → RealField → RealField)
    (scorer : RealField → RealField → ℚ) (kappa_true ks : Field)
    (steps : ℕ) (M : ℚ)
    (hd : dims (realPart kappa_true) = dims (realPart ks))
    (hb : ∀ s f, dims (blur s f) = dims f)
    (_hsteps : 1 ≤ steps)
    (hmem : M ∈ candScores blur scorer kappa_true ks steps)
    (hmax : ∀ x ∈ candScores blur scorer kappa_true ks steps, x ≤ M)
    (hpos : 0 < M) :
    ∃ st fld, ksGridsearch blur scorer kappa_true ks steps =
        (.ok (st, fld), (List.range steps).map (· + 1) ++ [st.smooth_max]) ∧
      st.snr_max = M := by
  refine ⟨scanResult blur scorer kappa_true ks steps, _,
    ksGridsearch_ok blur scorer kappa_true ks steps hd hb, ?_⟩
  show (scanResult blur scorer kappa_true ks steps).snr_max = M
  unfold scanResult
  rw [foldl_pureStep_snr_max]
  exact foldl_max_eq _ _ _ hmax (le_of_lt hpos) (Or.inl hmem)

/-- Witness for C1: identity blur, constant scorer `1`, 1×1 zero fields,
one step; the reported best score is the maximal candidate score `1`. -/
theorem C1_best_score_is_max_witness :
    ∃ st fld, ksGridsearch idBlur oneScorer fieldOne fieldOne 1 =
        (.ok (st, fld), (List.range 1).map (· + 1) ++ [st.smooth_max]) ∧
      st.snr_max = 1 :=
  C1_best_score_is_max idBlur oneScorer fieldOne fieldOne 1 1 (by decide)
    (fun _ _ => rfl) (by decide) (by decide) (by decide) (by decide)

/-- Claim C2 (amended) — if two scales `s1 < s2` in range attain equal
scores, every other candidate score is strictly smaller, and their common
score exceeds the initial score `0`, then the strict greater-than update
keeps `s1`: the returned best scale is `s1` and the best score is its
score.  (The positivity proviso is forced: a tied maximum `≤ 0` never
replaces the initial state, see the counterexample.) -/
theorem C2_tie_breaks_to_smaller (blur : ℕ → RealField → RealField)
    (scorer : RealField → RealField → ℚ) (kappa_true ks : Field)
    (steps s1 s2 : ℕ)
    (hd : dims (realPart kappa_true) = dims (realPart ks))
    (hb : ∀ s f, dims (blur s f) = dims f)
    (hs1 : 1 ≤ s1) (h12 : s1 < s2) (hs2 : s2 ≤ steps)
    (heq : scorer (realPart kappa_true) (blur s1 (realPart ks)) =
      scorer (realPart kappa_true) (blur s2 (realPart ks)))
    (hpos : 0 < scorer (realPart kappa_true) (blur s1 (realPart ks)))
    (hother : ∀ t, 1 ≤ t → t ≤ steps → t ≠ s1 → t ≠ s2 →
      scorer (realPart kappa_true) (blur t (realPart ks)) <
        scorer (realPart kappa_true) (blur s1 (realPart ks))) :
    ksGridsearch blur scorer kappa_true ks steps =
      (.ok (⟨scorer (realPart kappa_true) (blur s1 (realPart ks)), s1⟩,
            blur s1 (realPart ks)),
       (List.range steps).map (· + 1) ++ [s1]) := by
  rw [ksGridsearch_ok blur scorer kappa_true ks steps hd hb]
  have hres : scanResult blur scorer kappa_true ks steps =
      ⟨scorer (realPart kappa_true) (blur s1 (realPart ks)), s1⟩ :=
    foldl_pureStep_first_argmax _ steps s1 s2 hs1 h12 hs2 heq hpos hother
  rw [hres]

/-- Witness for the amended C2: scales 1 and 2 tie at score `1 > 0` and
are the only candidates; scale 1 is returned. -/
theorem C2_tie_breaks_to_smaller_witness :
    ksGridsearch idBlur oneScorer fieldOne fieldOne 2 =
      (.ok (⟨1, 1⟩, realPart fieldOne), (List.range 2).map (· + 1) ++ [1]) :=
  C2_tie_breaks_to_smaller idBlur oneScorer fieldOne fieldOne 2 1 2
    (by decide) (fun _ _ => rfl) (by decide) (by decide) (by decide) rfl
    (by decide) (fun t h1 h2 hn1 hn2 => absurd h1 (by omega))

/-- Counterexample to claim C2 as stated: with constant score `-1` (SNR in
decibels can be negative) the scales 1 and 2 tie at the maximum candidate
score and exceed all (zero) other candidate scores, yet the gridsearch
returns scale 0 with score 0 — not the smaller tied scale 1 with its
score, because `-1 > 0` never holds and the initial state survives. -/
theorem C2_counterexample :
    ksGridsearch idBlur negScorer fieldOne fieldOne 2 =
      (.ok (⟨0, 0⟩, realPart fieldOne), [1, 2, 0]) ∧
    ksGridsearch idBlur negScorer fieldOne fieldOne 2 ≠
      (.ok (⟨-1, 1⟩, realPart fieldOne), [1, 2, 1]) := by
  exact ⟨by decide, by decide⟩

/-- Claim C3 (amended) — the notebook performs no parameter validation:
with `max_scale_steps = 0` the loop body never runs and the gridsearch
returns the trivial result (score 0, scale 0, the field blurred at sigma
0) instead of failing with `InvalidParameter`. -/
theorem C3_zero_steps_returns_trivial (blur : ℕ → RealField → RealField)
    (scorer : RealField → RealField → ℚ) (kappa_true ks : Field) :
    ksGridsearch blur scorer kappa_true ks 0 =
      (.ok (⟨0, 0⟩, blur 0 (realPart ks)), [0]) := rfl

/-- Counterexample to claim C3 as stated: at `max_scale_steps = 0` the
gridsearch produces an ordinary result and no `InvalidParameter` error. -/
theorem C3_counterexample :
    ksGridsearch idBlur zeroScorer fieldOne fieldOne 0 =
      (.ok (⟨0, 0⟩, realPart fieldOne), [0]) ∧
    (ksGridsearch idBlur zeroScorer fieldOne fieldOne 0).1 ≠
      .error .InvalidParameter := by
  exact ⟨by decide, by decide⟩

/-- Claim C4 (amended) — with differing input shapes nothing is checked up
front: the first loop iteration computes the scale-1 Gaussian blur of the
raw estimate, and only then does the scorer raise `DimensionMismatch`,
which aborts the cell with no best result; the sigma log `[1]` records the
one blur that was computed before the failure. -/
theorem C4_mismatch_fails_after_first_blur (blur : ℕ → RealField → RealField)
    (scorer : RealField → RealField → ℚ) (kappa_true ks : Field)
    (steps : ℕ)
    (hd : dims (realPart kappa_true) ≠ dims (realPart ks))
    (hb : ∀ s f, dims (blur s f) = dims f)
    (hsteps : 1 ≤ steps) :
    ksGridsearch blur scorer kappa_true ks steps =
      (.error .DimensionMismatch, [1]) := by
  obtain ⟨k, rfl⟩ : ∃ k, steps = k + 1 := ⟨steps - 1, by omega⟩
  have hdd : ¬ dims (realPart kappa_true) = dims (blur (0 + 1) (realPart ks)) := by
    rw [hb]; exact hd
  simp only [ksGridsearch, List.range_succ_eq_map]
  rw [runScan_head_mismatch blur scorer _ _ 0 _ _ hdd]

/-- Witness for the amended C4: a 4×4 raw estimate against an 8×8 ground
truth over the notebook's 30 steps fails with `DimensionMismatch` after
the single scale-1 blur. -/
theorem C4_mismatch_fails_after_first_blur_witness :
    ksGridsearch idBlur zeroScorer zerosEight zerosFour 30 =
      (.error .DimensionMismatch, [1]) :=
  C4_mismatch_fails_after_first_blur idBlur zeroScorer zerosEight zerosFour 30
    (by decide) (fun _ _ => rfl) (by decide)

/-- Counterexample to claim C4 as stated: on a 4×4 raw estimate and an 8×8
ground truth the cell does fail with `DimensionMismatch` and yields no
best result, but not before any blur is computed — the sigma log is `[1]`,
not the empty log the claim requires: the scale-1 `gaussian_filter` call
happens before the scorer ever sees both fields. -/
theorem C4_counterexample :
    ksGridsearch idBlur zeroScorer zerosEight zerosFour 30 =
      (.error .DimensionMismatch, [1]) ∧
    (ksGridsearch idBlur zeroScorer zerosEight zerosFour 30).2 ≠ [] := by
  exact ⟨by decide, by decide⟩

/-- Claim C5 — the scan starts from `snr_max = 0`, `smooth_max = 0`, and
when no candidate score is strictly greater than `0` the gridsearch
returns exactly that trivial best: scale 0 with score 0, the field being
the raw estimate blurred at sigma 0 (no smoothing). -/
theorem C5_trivial_best_when_no_improvement (blur : ℕ → RealField → RealField)
    (scorer : RealField → RealField → ℚ) (kappa_true ks : Field)
    (steps : ℕ)
    (hd : dims (realPart kappa_true) = dims (realPart ks))
    (hb : ∀ s f, dims (blur s f) = dims f)
    (hle : ∀ x ∈ candScores blur scorer kappa_true ks steps, x ≤ 0) :
    ksGridsearch blur scorer kappa_true ks steps =
      (.ok (⟨0, 0⟩, blur 0 (realPart ks)),
       (List.range steps).map (· + 1) ++ [0]) := by
  rw [ksGridsearch_ok blur scorer kappa_true ks steps hd hb]
  have hres : scanResult blur scorer kappa_true ks steps = ⟨0, 0⟩ := by
    unfold scanResult
    apply foldl_pureStep_const
    intro i hi
    exact hle _ (List.mem_map_of_mem _ hi)
  rw [hres]

/-- Witness for C5: every candidate scores `-1 ≤ 0`, so scale 0 and score
0 are returned. -/
theorem C5_trivial_best_when_no_improvement_witness :
    ksGridsearch idBlur negScorer fieldOne fieldOne 2 =
      (.ok (⟨0, 0⟩, idBlur 0 (realPart fieldOne)),
       (List.range 2).map (· + 1) ++ [0]) :=
  C5_trivial_best_when_no_improvement idBlur negScorer fieldOne fieldOne 2
    (by decide) (fun _ _ => rfl) (by decide)

/-- Claim C6 — on valid same-shaped inputs with `max_scale_steps ≥ 1` the
gridsearch succeeds and its returned best scale lies in
`[0, max_scale_steps]` (the lower bound holds since the scale is a natural
number). -/
theorem C6_best_scale_in_range (blur : ℕ → RealField → RealField)
    (scorer : RealField → RealField → ℚ) (kappa_true ks : Field)
    (steps : ℕ)
    (hd : dims (realPart kappa_true) = dims (realPart ks))
    (hb : ∀ s f, dims (blur s f) = dims f)
    (_hsteps : 1 ≤ steps) :
    ∃ st fld log, ksGridsearch blur scorer kappa_true ks steps =
        (.ok (st, fld), log) ∧ st.smooth_max ≤ steps := by
  refine ⟨scanResult blur scorer kappa_true ks steps, _, _,
    ksGridsearch_ok blur scorer kappa_true ks steps hd hb, ?_⟩
  show (scanResult blur scorer kappa_true ks steps).smooth_max ≤ steps
  unfold scanResult
  apply foldl_pureStep_smooth_le
  · intro i hi
    exact Nat.succ_le_of_lt (List.mem_range.mp hi)
  · exact Nat.zero_le _

/-- Witness for C6 at one step on 1×1 fields. -/
theorem C6_best_scale_in_range_witness :
    ∃ st fld log, ksGridsearch idBlur zeroScorer fieldOne fieldOne 1 =
        (.ok (st, fld), log) ∧ st.smooth_max ≤ 1 :=
  C6_best_scale_in_range idBlur zeroScorer fieldOne fieldOne 1
    (by decide) (fun _ _ => rfl) (by decide)

/-- Claim C7 — the gridsearch is deterministic: it is a pure function of
the blur, the scorer, the two fields and the step count (cell 12 does no
I/O and draws no randomness), so two invocations with equal inputs return
equal `(best_score, best_scale, best_field)` results and equal sigma
logs. -/
theorem C7_deterministic (blur1 blur2 : ℕ → RealField → RealField)
    (scorer1 scorer2 : RealField → RealField → ℚ)
    (kt1 kt2 ks1 ks2 : Field) (steps1 steps2 : ℕ)
    (hblur : blur1 = blur2) (hscorer : scorer1 = scorer2)
    (hkt : kt1 = kt2) (hks : ks1 = ks2) (hsteps : steps1 = steps2) :
    ksGridsearch blur1 scorer1 kt1 ks1 steps1 =
      ksGridsearch blur2 scorer2 kt2 ks2 steps2 := by
  rw [hblur, hscorer, hkt, hks, hsteps]

/-- Witness for C7: two identical concrete invocations agree. -/
theorem C7_deterministic_witness :
    ksGridsearch idBlur zeroScorer fieldOne fieldOne 1 =
      ksGridsearch idBlur zeroScorer fieldOne fieldOne 1 :=
  C7_deterministic idBlur idBlur zeroScorer zeroScorer fieldOne fieldOne
    fieldOne fieldOne 1 1 rfl rfl rfl rfl rfl

/-- Claim C8 — the gridsearch has no side effects on its inputs: after
cell 12 runs, the names `kappa_true` and `ks` are bound to the same field
values as before it (the cell never assigns them, and every blur produces
a new field). -/
theorem C8_inputs_unchanged (blur : ℕ → RealField → RealField)
    (scorer : RealField → RealField → ℚ) (kappa_true ks : Field)
    (steps : ℕ) :
    (cell12 blur scorer kappa_true ks steps).1 = kappa_true ∧
    (cell12 blur scorer kappa_true ks steps).2.1 = ks :=
  ⟨rfl, rfl⟩

/-- Claim C9 — the field the gridsearch returns is recomputed after the
scan as `gaussian_filter(np.real(ks), smooth_max)`, and (because the blur
is a function of its arguments, and blurring at sigma 0 leaves the raw
estimate unchanged) it equals the best smoothed candidate that the
spec-style scan carrying the field in its accumulator would have kept. -/
theorem C9_recomputed_field_eq_tracked (blur : ℕ → RealField → RealField)
    (scorer : RealField → RealField → ℚ) (kappa_true ks : Field)
    (steps : ℕ)
    (hd : dims (realPart kappa_true) = dims (realPart ks))
    (hb : ∀ s f, dims (blur s f) = dims f)
    (hzero : blur 0 (realPart ks) = realPart ks) :
    (ksGridsearch blur scorer kappa_true ks steps).1 =
      .ok (⟨(trackedGridsearch blur scorer kappa_true ks steps).1,
            (trackedGridsearch blur scorer kappa_true ks steps).2.1⟩,
           (trackedGridsearch blur scorer kappa_true ks steps).2.2) := by
  rw [ksGridsearch_ok blur scorer kappa_true ks steps hd hb]
  have ht : trackedGridsearch blur scorer kappa_true ks steps =
      ((scanResult blur scorer kappa_true ks steps).snr_max,
       (scanResult blur scorer kappa_true ks steps).smooth_max,
       blur (scanResult blur scorer kappa_true ks steps).smooth_max
         (realPart ks)) := by
    unfold trackedGridsearch scanResult
    exact trackedScan_eq_foldl blur scorer (realPart kappa_true) (realPart ks)
      (List.range steps) 0 0 (realPart ks) hzero.symm
  rw [ht]

/-- Witness for C9 on concrete inputs: identity blur (so sigma 0 is the
identity), constant scorer `1`, two steps. -/
theorem C9_recomputed_field_eq_tracked_witness :
    (ksGridsearch idBlur oneScorer fieldOne fieldOne 2).1 =
      .ok (⟨(trackedGridsearch idBlur oneScorer fieldOne fieldOne 2).1,
            (trackedGridsearch idBlur oneScorer fieldOne fieldOne 2).2.1⟩,
           (trackedGridsearch idBlur oneScorer fieldOne fieldOne 2).2.2) :=
  C9_recomputed_field_eq_tracked idBlur oneScorer fieldOne fieldOne 2
    (by decide) (fun _ _ => rfl) rfl

/-- Claim C10 — the gridsearch result depends only on the real parts of
its complex inputs: every blur and score is computed on `np.real(ks)` and
`np.real(kappa_true)`, so two pairs of inputs with equal real parts and
arbitrary imaginary parts produce identical results and sigma logs. -/
theorem C10_depends_only_on_real_parts (blur : ℕ → RealField → RealField)
    (scorer : RealField → RealField → ℚ) (kt1 kt2 ks1 ks2 : Field)
    (steps : ℕ)
    (hk : realPart kt1 = realPart kt2) (hr : realPart ks1 = realPart ks2) :
    ksGridsearch blur scorer kt1 ks1 steps =
      ksGridsearch blur scorer kt2 ks2 steps := by
  simp only [ksGridsearch, hk, hr]

/-- Witness for C10: 1×1 fields with equal real parts but imaginary parts
`1` and `2` give identical results. -/
theorem C10_depends_only_on_real_parts_witness :
    ksGridsearch idBlur oneScorer fieldImOne fieldImOne 1 =
      ksGridsearch idBlur oneScorer fieldImTwo fieldImTwo 1 :=
  C10_depends_only_on_real_parts idBlur oneScorer fieldImOne fieldImTwo
    fieldImOne fieldImTwo 1 (by decide) (by decide)

end DarkMappy
